import Mathlib

/-!
Shallow embedding of kubectl-xctx (src/main.go).

The external collaborator `kubectlRunner` (a process invocation of kubectl)
is modelled as an oracle parameter: a pure function from the optional
deadline carried by the execution context and the argument list to the
triple (stdout, stderr, error).  Byte slices are modelled as `String`s,
`error` values as `Option String` carrying the error text, and
`time.Duration` (an int64 of nanoseconds) as `Int`.
-/

/-- Model of the `kubectlRunner` collaborator: given the optional deadline of
the context it receives and the argument list, it returns captured stdout,
captured stderr, and the invocation error (`none` = success). -/
def Runner : Type := Option Int → List String → String × String × Option String

/-- Go struct `result` from src/main.go lines 139-144. -/
structure result where
  ctxName : String
  stdout : String
  stderr : String
  err : Option String
deriving Repr, DecidableEq

/-- The zero value of `result`, as produced by `make([]result, n)`. -/
def emptyResult : result := { ctxName := "", stdout := "", stderr := "", err := none }

/-- Errors returned by `execute` and the run functions, one constructor per
`fmt.Errorf` site in src/main.go. -/
inductive ExecErr where
  /-- Error `invalid pattern %q: %w` (line 149). -/
  | invalidPattern (pattern : String)
  /-- Error `failed to list kubectl contexts: %w` (line 182). -/
  | sourceUnavailable
  /-- Error `no kubectl command provided (...)` (line 170). -/
  | noCommand
  /-- Error `stopped after failure in context %q (%d context(s) failed)` (line 225). -/
  | failFastStop (ctxName : String) (failed : Nat)
  /-- Error `%d context(s) failed` (lines 230 and 257). -/
  | aggregate (failed : Nat)
deriving Repr, DecidableEq

/-- Function `maybeWithTimeout` (src/main.go lines 262-267): a positive duration
yields a context with that deadline, otherwise the background context
(no deadline). -/
def maybeWithTimeout (d : Int) : Option Int :=
  if d > 0 then some d else none

/-- Function `runInContext` (src/main.go lines 194-197): prepend `--context <name>`
to the argument list, invoke the runner, and package the three outcomes
into a `result` record. -/
def runInContext (runner : Runner) (deadline : Option Int) (ctxName : String)
    (args : List String) : result :=
  let r := runner deadline ("--context" :: ctxName :: args)
  { ctxName := ctxName, stdout := r.1, stderr := r.2.1, err := r.2.2 }

/-- Go's `%q` verb, modelled as plain double-quoting (escaping of
non-printable characters is elided; no claim depends on it). -/
def goQuote (s : String) : String := "\"" ++ s ++ "\""

/-- Function `printResult` (src/main.go lines 199-213), rendered as the pair of
strings written to the normal stream and to the diagnostic stream.
`fmt.Fprintln(out, s)` appends `s ++ "\n"`; `out.Write(b)` appends the raw
bytes; the stderr write is guarded by `len(r.stderr) > 0` and the failure
notice by `r.err != nil`; the trailing `fmt.Fprintln(out)` appends `"\n"`
only when a header was printed. -/
def printResult (r : result) (header : String) : String × String :=
  let outHeader := if header ≠ "" then (header.replace "{context}" r.ctxName) ++ "\n" else ""
  let errDiag := if r.stderr.length > 0 then r.stderr else ""
  let errFail := match r.err with
    | some cause => "[xctx] context " ++ goQuote r.ctxName ++ " failed: " ++ cause ++ "\n"
    | none => ""
  let outTrail := if header ≠ "" then "\n" else ""
  (outHeader ++ r.stdout ++ outTrail, errDiag ++ errFail)

/-- Go's `unicode.IsSpace` on the code points relevant here: ASCII
whitespace plus NEL and NBSP (higher Unicode space runes elided; no claim
depends on them). -/
def goIsSpace (c : Char) : Bool :=
  c.toNat = 9 || c.toNat = 10 || c.toNat = 11 || c.toNat = 12 || c.toNat = 13 ||
    c.toNat = 32 || c.toNat = 0x85 || c.toNat = 0xA0

/-- Go's `strings.TrimSpace`: drop whitespace from both ends. -/
def trimChars (cs : List Char) : List Char :=
  ((cs.dropWhile goIsSpace).reverse.dropWhile goIsSpace).reverse

/-- Go's `strings.Split s sep` for a one-character separator: the substrings
between occurrences of `sep` (`"" ↦ [""]`, and a trailing separator yields a
trailing empty field, exactly as in Go). -/
def splitOnChar (sep : Char) : List Char → List (List Char)
  | [] => [[]]
  | c :: cs =>
    let r := splitOnChar sep cs
    if c = sep then [] :: r
    else
      match r with
      | [] => [[c]]
      | w :: ws => (c :: w) :: ws

/-- The candidate name lines parsed from the context source's stdout
(src/main.go line 186): `strings.Split(strings.TrimSpace(out), "\n")`. -/
def candidateNames (out : String) : List String :=
  (splitOnChar '\n' (trimChars out.data)).map String.mk

/-- Function `matchingContexts` (src/main.go lines 179-192).  The compiled regexp is
abstracted to the predicate `m` (`re.MatchString`); the collaborator call is
abstracted to its outcome `sourceOut` (`none` = retrieval failure).  Keeps
every non-empty candidate line accepted by `m`, in order. -/
def matchingContexts (m : String → Bool) (sourceOut : Option String) :
    Option (List String) :=
  match sourceOut with
  | none => none
  | some out => some ((candidateNames out).filter (fun name => name ≠ "" && m name))

/-- What one run of either engine produced: the targets actually invoked (in
invocation order), the records emitted to the presenter (in emission order),
and the returned error. -/
structure RunOutcome where
  invoked : List String
  records : List result
  err : Option ExecErr
deriving Repr, DecidableEq

/-- The loop of `runSequential` (src/main.go lines 215-233), carrying the
running `failed` count.  Each record is emitted as soon as it is produced;
under fail-fast a failure returns immediately with the fail-fast error. -/
def runSequentialGo (runner : Runner) (deadline : Option Int) (args : List String)
    (failFast : Bool) : List String → Nat → RunOutcome
  | [], failed =>
    { invoked := [], records := [],
      err := if failed > 0 then some (.aggregate failed) else none }
  | ctxName :: rest, failed =>
    let r := runInContext runner deadline ctxName args
    if r.err.isSome then
      if failFast then
        { invoked := [ctxName], records := [r],
          err := some (.failFastStop ctxName (failed + 1)) }
      else
        let o := runSequentialGo runner deadline args failFast rest (failed + 1)
        { invoked := ctxName :: o.invoked, records := r :: o.records, err := o.err }
    else
      let o := runSequentialGo runner deadline args failFast rest failed
      { invoked := ctxName :: o.invoked, records := r :: o.records, err := o.err }

/-- Function `runSequential` (src/main.go lines 215-233). -/
def runSequential (runner : Runner) (contexts kubectlArgs : List String)
    (timeout : Int) (failFast : Bool) : RunOutcome :=
  runSequentialGo runner (maybeWithTimeout timeout) kubectlArgs failFast contexts 0

/-- The slot table of `runParallel`: each completing worker `i` writes
`run i` into slot `i` of the table; `schedule` is the order in which the
workers happen to complete.  A write to an out-of-range slot is impossible
in the source (indices come from `range contexts`) and is a no-op here. -/
def writeSlots (run : Nat → result) (schedule : List Nat) (table : List result) :
    List result :=
  schedule.foldl (fun t i => t.set i (run i)) table

/-- Function `runParallel` (src/main.go lines 235-260): allocate one zero-valued slot
per context, let each worker write its own slot (in arbitrary completion
order `schedule`), join, then emit every record in slot order and aggregate
the failure count. -/
def runParallel (runner : Runner) (contexts kubectlArgs : List String)
    (timeout : Int) (schedule : List Nat) : RunOutcome :=
  let run := fun i =>
    runInContext runner (maybeWithTimeout timeout) (contexts.getD i "") kubectlArgs
  let table := writeSlots run schedule (contexts.map (fun _ => emptyResult))
  let failed := table.countP (fun r => r.err.isSome)
  { invoked := contexts, records := table,
    err := if failed > 0 then some (.aggregate failed) else none }

/-- Everything observable about one call of `execute`: the returned error,
whether the candidate target source was consulted, the targets invoked, the
records emitted, whether the "no contexts matched" notice was printed, and
the contexts printed by list mode. -/
structure ExecTrace where
  err : Option ExecErr
  sourceConsulted : Bool
  invoked : List String
  records : List result
  noMatchNotice : Bool
  listedContexts : Option (List String)
deriving Repr, DecidableEq

/-- Function `execute` (src/main.go lines 146-177).  `compiled` abstracts
`regexp.Compile pattern` (`none` = compilation failure); `sourceOut`
abstracts the stdout of the context-listing collaborator call. -/
def execute (compiled : Option (String → Bool)) (sourceOut : Option String)
    (runner : Runner) (schedule : List Nat) (pattern : String)
    (kubectlArgs : List String) (parallel list : Bool) (timeout : Int)
    (failFast : Bool) : ExecTrace :=
  match compiled with
  | none =>
    { err := some (.invalidPattern pattern), sourceConsulted := false,
      invoked := [], records := [], noMatchNotice := false, listedContexts := none }
  | some m =>
    match matchingContexts m sourceOut with
    | none =>
      { err := some .sourceUnavailable, sourceConsulted := true,
        invoked := [], records := [], noMatchNotice := false, listedContexts := none }
    | some contexts =>
      if contexts = [] then
        { err := none, sourceConsulted := true, invoked := [], records := [],
          noMatchNotice := true, listedContexts := none }
      else if list then
        { err := none, sourceConsulted := true, invoked := [], records := [],
          noMatchNotice := false, listedContexts := some contexts }
      else if kubectlArgs = [] then
        { err := some .noCommand, sourceConsulted := true, invoked := [],
          records := [], noMatchNotice := false, listedContexts := none }
      else
        let o := if parallel then runParallel runner contexts kubectlArgs timeout schedule
          else runSequential runner contexts kubectlArgs timeout failFast
        { err := o.err, sourceConsulted := true, invoked := o.invoked,
          records := o.records, noMatchNotice := false, listedContexts := none }

/-- The Target Selector as the spec words it: the ordered subsequence of
candidate names the pattern matches (no non-emptiness condition).  Used only
to compare the spec's wording with `matchingContexts`. -/
def selectorSpec (m : String → Bool) (out : String) : List String :=
  (candidateNames out).filter m

/-! ## Characterization lemmas -/

lemma writeSlots_nil (run : Nat → result) (t : List result) : writeSlots run [] t = t := rfl

lemma writeSlots_cons (run : Nat → result) (i : Nat) (s : List Nat) (t : List result) :
    writeSlots run (i :: s) t = writeSlots run s (t.set i (run i)) := rfl

lemma writeSlots_length (run : Nat → result) :
    ∀ (s : List Nat) (t : List result), (writeSlots run s t).length = t.length := by
  intro s
  induction s with
  | nil => intro t; rfl
  | cons i s ih => intro t; rw [writeSlots_cons, ih, List.length_set]

lemma writeSlots_getElem? (run : Nat → result) :
    ∀ (s : List Nat) (t : List result) (j : Nat),
      (writeSlots run s t)[j]? =
        if j ∈ s ∧ j < t.length then some (run j) else t[j]? := by
  intro s
  induction s with
  | nil => intro t j; simp [writeSlots_nil]
  | cons i s ih =>
    intro t j
    rw [writeSlots_cons, ih, List.length_set, List.getElem?_set]
    by_cases hjt : j < t.length
    · by_cases hjs : j ∈ s
      · simp [hjs, hjt, List.mem_cons]
      · by_cases hij : i = j
        · subst hij
          simp [hjs, hjt, List.mem_cons]
        · simp [hjs, hjt, hij, Ne.symm hij, List.mem_cons]
    · have hnone : t[j]? = none := List.getElem?_eq_none (Nat.le_of_not_lt hjt)
      by_cases hij : i = j
      · subst hij
        simp [hjt, hnone]
      · simp [hjt, hij, hnone]

/-- With a schedule in which every worker completes, the parallel slot table
read in slot order is exactly the per-target records in selection order. -/
lemma runParallel_records (runner : Runner) (contexts kubectlArgs : List String)
    (timeout : Int) (schedule : List Nat)
    (h : ∀ i < contexts.length, i ∈ schedule) :
    (runParallel runner contexts kubectlArgs timeout schedule).records
      = contexts.map
          (fun c => runInContext runner (maybeWithTimeout timeout) c kubectlArgs) := by
  simp only [runParallel]
  apply List.ext_getElem?
  intro j
  rw [writeSlots_getElem?, List.length_map, List.getElem?_map]
  by_cases hj : j < contexts.length
  · have hmem := h j hj
    have hget : contexts.getD j "" = contexts[j] := by
      rw [List.getD_eq_getElem?_getD, List.getElem?_eq_getElem hj]
      rfl
    simp [hmem, hj, hget, List.getElem?_eq_getElem hj]
  · have hnone : contexts[j]? = none := List.getElem?_eq_none (Nat.le_of_not_lt hj)
    have hnoneTable : (contexts.map (fun _ => emptyResult))[j]? = (none : Option result) :=
      List.getElem?_eq_none (by simpa using Nat.le_of_not_lt hj)
    simp [hj, hnone, hnoneTable]

/-- Engine `runParallel` keeps the `err` field determined by the failure count of
its records. -/
lemma runParallel_err (runner : Runner) (contexts kubectlArgs : List String)
    (timeout : Int) (schedule : List Nat) :
    (runParallel runner contexts kubectlArgs timeout schedule).err =
      (if (runParallel runner contexts kubectlArgs timeout schedule).records.countP
          (fun r => r.err.isSome) > 0 then
        some (.aggregate ((runParallel runner contexts kubectlArgs timeout schedule).records.countP
          (fun r => r.err.isSome)))
      else none) := by
  simp only [runParallel]

/-- Full characterization of the sequential loop without fail-fast: every
target is run in order, and the error aggregates the failure count. -/
lemma runSequentialGo_no_failFast (runner : Runner) (deadline : Option Int)
    (kubectlArgs : List String) :
    ∀ (contexts : List String) (failed : Nat),
      runSequentialGo runner deadline kubectlArgs false contexts failed =
        { invoked := contexts,
          records := contexts.map (fun c => runInContext runner deadline c kubectlArgs),
          err :=
            if failed + (contexts.map (fun c => runInContext runner deadline c kubectlArgs)).countP
                (fun r => r.err.isSome) > 0 then
              some (.aggregate (failed + (contexts.map
                (fun c => runInContext runner deadline c kubectlArgs)).countP
                  (fun r => r.err.isSome)))
            else none } := by
  intro contexts
  induction contexts with
  | nil => intro failed; simp [runSequentialGo]
  | cons c cs ih =>
    intro failed
    by_cases hc : (runInContext runner deadline c kubectlArgs).err.isSome
    · simp [runSequentialGo, hc, ih, List.countP_cons]
      omega
    · simp [runSequentialGo, hc, ih, List.countP_cons]

/-- Under fail-fast, if every target before `a` succeeds and `a` fails, the
loop runs exactly the targets up to and including `a` and returns the
fail-fast error naming `a` with failure count 1. -/
lemma runSequentialGo_failFast_first_failure (runner : Runner) (deadline : Option Int)
    (kubectlArgs : List String) :
    ∀ (pre : List String) (a : String) (post : List String),
      (∀ c ∈ pre, (runInContext runner deadline c kubectlArgs).err = none) →
      (runInContext runner deadline a kubectlArgs).err.isSome →
      runSequentialGo runner deadline kubectlArgs true (pre ++ a :: post) 0 =
        { invoked := pre ++ [a],
          records := (pre ++ [a]).map (fun c => runInContext runner deadline c kubectlArgs),
          err := some (.failFastStop a 1) } := by
  intro pre
  induction pre with
  | nil =>
    intro a post _ ha
    simp [runSequentialGo, ha]
  | cons c pre ih =>
    intro a post hpre ha
    have hc : (runInContext runner deadline c kubectlArgs).err = none :=
      hpre c (List.mem_cons_self c pre)
    have hrest := ih a post (fun d hd => hpre d (List.mem_cons_of_mem c hd)) ha
    simp [runSequentialGo, hc, hrest]

/-- The sequential loop never returns the missing-command error. -/
lemma runSequentialGo_err_ne_noCommand (runner : Runner) (deadline : Option Int)
    (kubectlArgs : List String) (failFast : Bool) :
    ∀ (contexts : List String) (failed : Nat),
      (runSequentialGo runner deadline kubectlArgs failFast contexts failed).err
        ≠ some .noCommand := by
  intro contexts
  induction contexts with
  | nil =>
    intro failed
    by_cases hf : failed > 0 <;> simp [runSequentialGo, hf]
  | cons c cs ih =>
    intro failed
    by_cases hc : (runInContext runner deadline c kubectlArgs).err.isSome
    · cases failFast with
      | true => simp [runSequentialGo, hc]
      | false =>
        simp only [runSequentialGo, hc, if_true, Bool.false_eq_true, if_false]
        exact ih (failed + 1)
    · simp only [runSequentialGo, hc, if_false, Bool.false_eq_true]
      exact ih failed

/-- The parallel engine never returns the missing-command error. -/
lemma runParallel_err_ne_noCommand (runner : Runner) (contexts kubectlArgs : List String)
    (timeout : Int) (schedule : List Nat) :
    (runParallel runner contexts kubectlArgs timeout schedule).err ≠ some .noCommand := by
  simp only [runParallel]
  split <;> simp

/-- A string with length 0 is the empty string. -/
lemma str_of_not_length_pos {s : String} (h : ¬ s.length > 0) : s = "" := by
  cases s with
  | mk data =>
    cases data with
    | nil => rfl
    | cons c cs => simp [String.length] at h

/-! ## Claim theorems -/

/-- A stand-in runner that always succeeds, for concrete instantiations. -/
def okRunner : Runner := fun _ _ => ("out", "", none)

/-- A stand-in runner that always fails, for concrete instantiations. -/
def failingRunner : Runner := fun _ _ => ("", "", some "boom")

/-- C1: sequential mode without fail-fast and parallel mode (under any
schedule in which every worker completes) both produce exactly one record
per selected target, emitted in selection order: the emitted record list is
the per-target record of each selected context, in selection order, and its
target fields enumerate the selected contexts in order. -/
theorem dispatch_one_record_per_target_in_order (runner : Runner)
    (contexts kubectlArgs : List String) (timeout : Int) (schedule : List Nat)
    (hsched : ∀ i < contexts.length, i ∈ schedule) :
    (runSequential runner contexts kubectlArgs timeout false).records
        = contexts.map (fun c => runInContext runner (maybeWithTimeout timeout) c kubectlArgs)
      ∧ (runSequential runner contexts kubectlArgs timeout false).records.map result.ctxName
        = contexts
      ∧ (runParallel runner contexts kubectlArgs timeout schedule).records
        = contexts.map (fun c => runInContext runner (maybeWithTimeout timeout) c kubectlArgs)
      ∧ (runParallel runner contexts kubectlArgs timeout schedule).records.map result.ctxName
        = contexts := by
  have hnames :
      (contexts.map (fun c => runInContext runner (maybeWithTimeout timeout) c kubectlArgs)).map
        result.ctxName = contexts := by
    rw [List.map_map]
    exact List.map_id'' (fun c => rfl) contexts
  have hseq : (runSequential runner contexts kubectlArgs timeout false).records
      = contexts.map (fun c => runInContext runner (maybeWithTimeout timeout) c kubectlArgs) := by
    rw [runSequential, runSequentialGo_no_failFast]
  have hpar := runParallel_records runner contexts kubectlArgs timeout schedule hsched
  exact ⟨hseq, by rw [hseq, hnames], hpar, by rw [hpar, hnames]⟩

/-- Witness for C1 at a concrete two-target selection with a schedule in
which the second worker completes before the first. -/
theorem dispatch_one_record_per_target_in_order_witness :
    (∀ i < (["a", "b"] : List String).length, i ∈ ([1, 0] : List Nat))
    ∧ ((runSequential okRunner ["a", "b"] ["get"] 0 false).records
        = (["a", "b"] : List String).map
            (fun c => runInContext okRunner (maybeWithTimeout 0) c ["get"])
      ∧ (runSequential okRunner ["a", "b"] ["get"] 0 false).records.map result.ctxName
        = ["a", "b"]
      ∧ (runParallel okRunner ["a", "b"] ["get"] 0 [1, 0]).records
        = (["a", "b"] : List String).map
            (fun c => runInContext okRunner (maybeWithTimeout 0) c ["get"])
      ∧ (runParallel okRunner ["a", "b"] ["get"] 0 [1, 0]).records.map result.ctxName
        = ["a", "b"]) :=
  ⟨by decide,
   dispatch_one_record_per_target_in_order okRunner ["a", "b"] ["get"] 0 [1, 0] (by decide)⟩

/-- C2: in sequential mode with fail-fast, when every target before `a`
succeeds and `a` fails, the run invokes exactly the targets up to and
including `a` (later targets are never invoked and get no record), and the
returned error is the fail-fast error naming `a` with failure count 1. -/
theorem failFast_halts_after_first_failure (runner : Runner)
    (kubectlArgs : List String) (timeout : Int) (pre : List String) (a : String)
    (post : List String)
    (hpre : ∀ c ∈ pre,
      (runInContext runner (maybeWithTimeout timeout) c kubectlArgs).err = none)
    (ha : (runInContext runner (maybeWithTimeout timeout) a kubectlArgs).err.isSome) :
    runSequential runner (pre ++ a :: post) kubectlArgs timeout true =
      { invoked := pre ++ [a],
        records := (pre ++ [a]).map
          (fun c => runInContext runner (maybeWithTimeout timeout) c kubectlArgs),
        err := some (.failFastStop a 1) } :=
  runSequentialGo_failFast_first_failure runner (maybeWithTimeout timeout) kubectlArgs
    pre a post hpre ha

/-- Witness for C2: targets [A, B, C] under an always-failing runner; the
run stops at A with failure count 1 and B, C are never invoked. -/
theorem failFast_halts_after_first_failure_witness :
    (∀ c ∈ ([] : List String),
      (runInContext failingRunner (maybeWithTimeout 0) c ["get"]).err = none)
    ∧ (runInContext failingRunner (maybeWithTimeout 0) "A" ["get"]).err.isSome
    ∧ runSequential failingRunner ([] ++ "A" :: ["B", "C"]) ["get"] 0 true =
        { invoked := [] ++ ["A"],
          records := ([] ++ ["A"]).map
            (fun c => runInContext failingRunner (maybeWithTimeout 0) c ["get"]),
          err := some (.failFastStop "A" 1) } :=
  ⟨by simp, by decide,
   failFast_halts_after_first_failure failingRunner ["get"] 0 [] "A" ["B", "C"]
     (by simp) (by decide)⟩

/-- C4: in both modes (without fail-fast; parallel under any schedule), the
returned error is the aggregate error carrying the number of emitted records
whose failure field is present when that number is positive, and success
(`none`) when it is zero. -/
theorem aggregate_error_iff_any_failure (runner : Runner)
    (contexts kubectlArgs : List String) (timeout : Int) (schedule : List Nat) :
    ((runSequential runner contexts kubectlArgs timeout false).err
      = if 0 < (runSequential runner contexts kubectlArgs timeout false).records.countP
            (fun r => r.err.isSome) then
          some (.aggregate ((runSequential runner contexts kubectlArgs timeout false).records.countP
            (fun r => r.err.isSome)))
        else none)
    ∧ ((runParallel runner contexts kubectlArgs timeout schedule).err
      = if 0 < (runParallel runner contexts kubectlArgs timeout schedule).records.countP
            (fun r => r.err.isSome) then
          some (.aggregate ((runParallel runner contexts kubectlArgs timeout schedule).records.countP
            (fun r => r.err.isSome)))
        else none) := by
  constructor
  · rw [runSequential, runSequentialGo_no_failFast]
    simp
  · exact runParallel_err runner contexts kubectlArgs timeout schedule

/-- C6: the single-target executor invokes the runner with exactly the
target-selection pair `--context <name>` prepended to the unmodified
argument list, and always returns a completed record whose target field is
the given identifier and whose remaining fields are the runner's outcomes. -/
theorem runInContext_exact_invocation (runner : Runner) (deadline : Option Int)
    (ctxName : String) (args : List String) :
    (runInContext runner deadline ctxName args).ctxName = ctxName
    ∧ runInContext runner deadline ctxName args =
        { ctxName := ctxName,
          stdout := (runner deadline (["--context", ctxName] ++ args)).1,
          stderr := (runner deadline (["--context", ctxName] ++ args)).2.1,
          err := (runner deadline (["--context", ctxName] ++ args)).2.2 } :=
  ⟨rfl, rfl⟩

/-- C3 counterexample: with a blank line between two candidate lines and an
all-accepting pattern, the selector drops the empty candidate, so it does
not return the full ordered subsequence of matching candidates that the
claim describes. -/
theorem selector_claim_counterexample :
    matchingContexts (fun _ => true) (some "a\n\nb")
      ≠ some (selectorSpec (fun _ => true) "a\n\nb") := by
  decide

/-- C3 amended: the selector returns the ordered subsequence of the
*non-empty* candidate names accepted by the pattern, preserving the
candidates' original relative order (it is a sublist of the candidates). -/
theorem selector_keeps_nonempty_matches_in_order (m : String → Bool) (out : String) :
    matchingContexts m (some out)
      = some ((candidateNames out).filter (fun n => n ≠ "" && m n))
    ∧ ((candidateNames out).filter (fun n => n ≠ "" && m n)).Sublist (candidateNames out) :=
  ⟨rfl, List.filter_sublist (candidateNames out)⟩

/-- C7: the presenter writes the rendered header (target substituted for the
placeholder) exactly when the template is non-empty, then the captured
output, then a trailing blank line exactly when a header was printed, all on
the normal stream; the diagnostic stream receives the captured diagnostics
followed by a failure notice naming the target and cause exactly when the
failure field is present, and receives nothing when diagnostics are empty
and there is no failure. -/
theorem printResult_stream_contract (r : result) (header : String) :
    (printResult r header).1
      = (if header = "" then "" else (header.replace "{context}" r.ctxName) ++ "\n")
        ++ r.stdout ++ (if header = "" then "" else "\n")
    ∧ (printResult r header).2
      = r.stderr ++ (match r.err with
          | some cause => "[xctx] context " ++ goQuote r.ctxName ++ " failed: " ++ cause ++ "\n"
          | none => "")
    ∧ (printResult { r with stderr := "", err := none } header).2 = "" := by
  refine ⟨?_, ?_, ?_⟩
  · by_cases h : header = "" <;> simp [printResult, h]
  · by_cases hs : r.stderr.length > 0
    · cases her : r.err <;> simp [printResult, hs, her]
    · have hempty : r.stderr = "" := str_of_not_length_pos hs
      cases her : r.err <;> simp [printResult, hs, her, hempty]
  · simp [printResult]

/-- C8: when the pattern compiles, the source is available, and no candidate
matches, `execute` prints the informational no-match notice and returns
success without invoking any target or producing any record. -/
theorem empty_selection_short_circuits (m : String → Bool) (out : String)
    (runner : Runner) (schedule : List Nat) (pattern : String)
    (kubectlArgs : List String) (parallel list : Bool) (timeout : Int)
    (failFast : Bool)
    (h : (candidateNames out).filter (fun n => n ≠ "" && m n) = []) :
    execute (some m) (some out) runner schedule pattern kubectlArgs parallel list
        timeout failFast =
      { err := none, sourceConsulted := true, invoked := [], records := [],
        noMatchNotice := true, listedContexts := none } := by
  simp only [execute, matchingContexts]
  rw [if_pos h]

/-- Witness for C8 at a pattern predicate that accepts nothing. -/
theorem empty_selection_short_circuits_witness :
    ((candidateNames "a").filter (fun n => n ≠ "" && (fun _ => false) n) = [])
    ∧ execute (some (fun _ => false)) (some "a") okRunner [] "p" ["get"] false false
        0 false =
        { err := none, sourceConsulted := true, invoked := [], records := [],
          noMatchNotice := true, listedContexts := none } :=
  ⟨by decide,
   empty_selection_short_circuits (fun _ => false) "a" okRunner [] "p" ["get"]
     false false 0 false (by decide)⟩

/-- C9: a pattern that fails to compile makes `execute` return the
invalid-pattern error before the candidate source is consulted and before
any target is invoked; no record is produced. -/
theorem invalid_pattern_preflight (sourceOut : Option String) (runner : Runner)
    (schedule : List Nat) (pattern : String) (kubectlArgs : List String)
    (parallel list : Bool) (timeout : Int) (failFast : Bool) :
    execute none sourceOut runner schedule pattern kubectlArgs parallel list
        timeout failFast =
      { err := some (.invalidPattern pattern), sourceConsulted := false,
        invoked := [], records := [], noMatchNotice := false,
        listedContexts := none } :=
  rfl

/-- C10: with an empty argument list, `execute` returns success when the
selection is empty or list mode is on, and the missing-command error exactly
when at least one target matched and list mode is off — the empty-selection
and list-only checks strictly precede the empty-argument check; and with a
non-empty argument list the missing-command error is never returned. -/
theorem missing_command_check_order (m : String → Bool) (out : String)
    (runner : Runner) (schedule : List Nat) (pattern : String)
    (parallel list : Bool) (timeout : Int) (failFast : Bool)
    (kubectlArgs : List String) (hargs : kubectlArgs ≠ []) :
    ((execute (some m) (some out) runner schedule pattern [] parallel list
        timeout failFast).err
      = if (candidateNames out).filter (fun n => n ≠ "" && m n) = [] then none
        else if list then none else some .noCommand)
    ∧ (execute (some m) (some out) runner schedule pattern kubectlArgs parallel
        list timeout failFast).err
      ≠ some .noCommand := by
  constructor
  · simp only [execute, matchingContexts]
    by_cases hcs : (candidateNames out).filter (fun n => n ≠ "" && m n) = []
    · rw [if_pos hcs, if_pos hcs]
    · rw [if_neg hcs, if_neg hcs]
      by_cases hl : list = true
      · rw [if_pos hl, if_pos hl]
      · rw [if_neg hl, if_neg hl]
        simp
  · simp only [execute, matchingContexts]
    by_cases hcs : (candidateNames out).filter (fun n => n ≠ "" && m n) = []
    · rw [if_pos hcs]
      simp
    · rw [if_neg hcs]
      by_cases hl : list = true
      · rw [if_pos hl]
        simp
      · rw [if_neg hl, if_neg hargs]
        by_cases hp : parallel = true
        · rw [if_pos hp]
          exact runParallel_err_ne_noCommand runner
            ((candidateNames out).filter (fun n => n ≠ "" && m n)) kubectlArgs
            timeout schedule
        · rw [if_neg hp]
          exact runSequentialGo_err_ne_noCommand runner (maybeWithTimeout timeout)
            kubectlArgs failFast
            ((candidateNames out).filter (fun n => n ≠ "" && m n)) 0

/-- Witness for C10 at a concrete non-empty selection with a non-empty
argument list. -/
theorem missing_command_check_order_witness :
    (["get"] : List String) ≠ []
    ∧ (((execute (some (fun _ => true)) (some "a") okRunner [] "p" [] false false
          0 false).err
        = if (candidateNames "a").filter (fun n => n ≠ "" && (fun _ => true) n) = []
          then none else if false then none else some .noCommand)
      ∧ (execute (some (fun _ => true)) (some "a") okRunner [] "p" ["get"] false
          false 0 false).err
        ≠ some .noCommand) :=
  ⟨by decide,
   missing_command_check_order (fun _ => true) "a" okRunner [] "p" false false 0
     false ["get"] (by decide)⟩
